import Mathlib

/-
Verification of the PyCAS core: the canonicalization (normalization) engine
and the rule-based differentiation/integration rewrite system.

The embedding mirrors `src/pycas/normalizer.py`, `normalizer_rules.py`,
`rules.py`, `core.py`, `errors.py` and `pretty_printer.py`.

Modelling conventions:
- Python AST dicts become the inductive type `Node`.  The error dict
  `{"error": True, "reason": r}` built by `errors.unsupported` is itself a
  dict that can flow through the same variables, so it is a `Node`
  constructor (`errObj`).  Reading the missing `"type"` key of an error
  dict raises `KeyError`; raised exceptions are modelled with
  `Except PyExn`.
- Numeric values (`int` / `Fraction`) are exact rationals `ℚ`, following
  the data model of the spec.  All arithmetic is written with `mkRat`,
  which performs exactly the gcd-normalization that Python's `Fraction`
  performs (and that Python `int` arithmetic trivially satisfies), and is
  computable by the kernel.  Floating literals are outside every claim.
- Rule results `{"result":.., "steps":.., "constant":..}` /
  `{"error": True, "reason":..}` become `RuleOut`; the dispatcher output
  (which additionally carries `"string"`) becomes `COut`.  Differentiation
  rules do not put a `"constant"` key in their dicts; `out.get("constant")`
  is then falsy, which is modelled by `constant := false`.
-/

namespace PyCAS

/-- Python exceptions that the modelled code can raise: `KeyError` from
indexing a missing dict key, `TypeError` from operating on `None`, and
`IndexError` from `terms[0]` on an empty list. -/
inductive PyExn where
  | keyError
  | typeError
  | indexError
deriving DecidableEq

/-- The AST node dicts of PyCAS (`"type"` tag plus fields), together with
the `errors.unsupported` error dict (`errObj`), which has no `"type"` key. -/
inductive Node where
  | const (value : ℚ)
  | var (vname : String)
  | power (base : Node) (exp : Int)
  | mul (const : ℚ) (expr : Node)
  | prod (factors : List Node)
  | sum (terms : List Node)
  | func (name : String) (arg : Node)
  | errObj (reason : String)

/-- Multiplication of exact numeric values: `Fraction`/`int` products in
Python are reduced-fraction results, which is what `mkRat` computes. -/
def qmul (a b : ℚ) : ℚ := mkRat (a.num * b.num) (a.den * b.den)

/-- Python `Fraction(a, b)` for integer `a`, `b` (`b ≠ 0` at every call
site): the sign is moved onto the numerator and the fraction reduced. -/
def fracInt (a b : Int) : ℚ :=
  if b < 0 then mkRat (-a) b.natAbs else mkRat a b.natAbs

/-- Python `str(..)` of an exact numeric value: an integer prints bare,
a non-integral fraction prints `num/den` (as `str(Fraction(..))` does). -/
def pyStr (q : ℚ) : String :=
  if q.den = 1 then toString q.num else toString q.num ++ "/" ++ toString q.den

/-- Trace entries: Python step lists mix strings and nested lists. -/
inductive Trace where
  | str (s : String)
  | list (xs : List Trace)

/-- Result dict of a single rewrite rule (`rules.py`): either the
`unsupported` error dict, or `{"result", "steps", "constant"?}`. -/
inductive RuleOut where
  | err (reason : String)
  | ok (result : Node) (steps : List Trace) (constant : Bool)

/-- Result dict of the `core.py` dispatchers, which add a `"string"` key
to successful rule results. -/
inductive COut where
  | err (reason : String)
  | ok (result : Node) (steps : List Trace) (constant : Bool) (string : String)

/-! ## Normalizer (`normalizer.py`, `normalizer_rules.py`) -/

/-- `prod_order_key` of `normalizer_rules.py`. -/
def prod_order_key : Node → Nat
  | .var _ => 0
  | .power _ _ => 1
  | .func _ _ => 2
  | _ => 99

/-- Python `sorted(fs, key=prod_order_key)`: a stable sort whose key space
is `{0, 1, 2, 99}` is the concatenation of the key-buckets in key order,
each bucket keeping the input order. -/
def prodSort (fs : List Node) : List Node :=
  fs.filter (fun f => prod_order_key f == 0) ++
  fs.filter (fun f => prod_order_key f == 1) ++
  fs.filter (fun f => prod_order_key f == 2) ++
  fs.filter (fun f => prod_order_key f == 99)

/-- Outcome of step 2 of `normalize_prod`: either an early `return`
(`Const 0` on a zero factor, or the `unsupported` dict on a non-atomic
factor), or the absorbed constant together with the atomic factors. -/
inductive Partition where
  | early (n : Node)
  | split (c : ℚ) (atoms : List Node)

/-- Step 2 of `normalize_prod`: absorb constants (short-circuiting on a
zero factor, before later factors are examined) and collect atomic
factors.  A factor that is itself an error dict would raise `KeyError`
at `factor["type"]`. -/
def prodAbsorb : List Node → Except PyExn Partition
  | [] => .ok (.split 1 [])
  | f :: fs =>
    match f with
    | .const v =>
      if v = 0 then .ok (.early (.const 0))
      else do
        match ← prodAbsorb fs with
        | .early n => .ok (.early n)
        | .split c atoms => .ok (.split (qmul c v) atoms)
    | .var s => do
      match ← prodAbsorb fs with
      | .early n => .ok (.early n)
      | .split c atoms => .ok (.split c (.var s :: atoms))
    | .power b e => do
      match ← prodAbsorb fs with
      | .early n => .ok (.early n)
      | .split c atoms => .ok (.split c (.power b e :: atoms))
    | .func n a => do
      match ← prodAbsorb fs with
      | .early n' => .ok (.early n')
      | .split c atoms => .ok (.split c (.func n a :: atoms))
    | .errObj _ => .error .keyError
    | other => .ok (.early (.errObj ("Unsupported Factor Type in Product: " ++
        (match other with
         | .mul _ _ => "mul"
         | .sum _ => "sum"
         | .prod _ => "prod"
         | _ => "?"))))

/-- Step 2.5 of `normalize_prod`: the first factor that is a `Var`, or a
`Power` whose base is a `Var`, supplies the canonical variable node.
Reading `factor["base"]["type"]` of a `Power` whose base is an error dict
raises `KeyError`. -/
def canonicalVar : List Node → Except PyExn (Option Node)
  | [] => .ok none
  | .var s :: _ => .ok (some (.var s))
  | .power b _ :: rest =>
    match b with
    | .errObj _ => .error .keyError
    | .var s => .ok (some (.var s))
    | _ => canonicalVar rest
  | _ :: rest => canonicalVar rest

/-- Step 3 of `normalize_prod`: sum the variable's exponents (a bare `Var`
contributes 1, a `Power`-of-var its exponent); all other atomic factors
pass through in order. -/
def powerSplit : List Node → Except PyExn (Int × List Node)
  | [] => .ok (0, [])
  | f :: fs =>
    match f with
    | .var _ => do
      let (ps, os) ← powerSplit fs
      .ok (ps + 1, os)
    | .power b e =>
      (match b with
       | .errObj _ => .error .keyError
       | .var _ => do
         let (ps, os) ← powerSplit fs
         .ok (ps + e, os)
       | _ => do
         let (ps, os) ← powerSplit fs
         .ok (ps, .power b e :: os))
    | .errObj _ => .error .keyError
    | other => do
      let (ps, os) ← powerSplit fs
      .ok (ps, other :: os)

/-- Steps 2.5–5 of `normalize_prod`, after constants are absorbed.
If `power_sum ≠ 0` but no canonical variable was found (impossible, since
any exponent contribution comes from a factor the variable scan accepts),
Python would go on to hand `None` to `prod_order_key`, raising
`TypeError`. -/
def prodRebuild (c : ℚ) (atoms : List Node) : Except PyExn Node := do
  let cv ← canonicalVar atoms
  let (psum, others) ← powerSplit atoms
  let others ←
    if psum = 1 then
      match cv with
      | some v => pure (others ++ [v])
      | none => .error .typeError
    else if 2 ≤ psum then
      match cv with
      | some v => pure (others ++ [.power v psum])
      | none => .error .typeError
    else
      pure others
  let others := prodSort others
  match others with
  | [] => .ok (.const c)
  | [f] => if c = 1 then .ok f else .ok (.mul c f)
  | fs =>
    if c ≠ 1 then .ok (.mul c (.prod fs)) else .ok (.prod fs)

/-- The flatten/drop-zeros loop of `normalize_sum` over the already
normalized terms: splice the terms of a `Sum`, drop zero `Const`s, keep
the rest; a term that is an error dict raises `KeyError` at
`term["type"]`. -/
def flattenSum : List Node → Except PyExn (List Node)
  | [] => .ok []
  | t :: ts =>
    match t with
    | .errObj _ => .error .keyError
    | .sum inner => do
      let rest ← flattenSum ts
      .ok (inner ++ rest)
    | .const v =>
      if v = 0 then flattenSum ts
      else do
        let rest ← flattenSum ts
        .ok (.const v :: rest)
    | other => do
      let rest ← flattenSum ts
      .ok (other :: rest)

mutual

/-- `normalize` of `normalizer.py`: bottom-up canonicalization.  Returned
error dicts are `.ok (.errObj ..)` (Python returns them as values); an
uncaught exception is `.error`.  Dispatching on an error dict reads its
missing `"type"` key, raising `KeyError`. -/
def normalize : Node → Except PyExn Node
  | .const v => .ok (.const v)
  | .var s => .ok (.var s)
  | .power b ex => do
    let nb ← normalize b
    if ex = 0 then .ok (.const 1)
    else if ex = 1 then .ok nb
    else .ok (.power nb ex)
  | .mul c e =>
    if c = 0 then .ok (.const 0)
    else do
      let ne ← normalize e
      match ne with
      | .errObj _ => .error .keyError
      | .const v => .ok (.const (qmul v c))
      | .mul c2 e2 => .ok (.mul (qmul c c2) e2)
      | ne' => if c = 1 then .ok ne' else .ok (.mul c ne')
  | .prod fs => do
    let flat ← prodFlatten fs
    match ← prodAbsorb flat with
    | .early n => .ok n
    | .split c atoms => prodRebuild c atoms
  | .sum ts => do
    let nts ← normalizeTerms ts
    let flat ← flattenSum nts
    match flat with
    | [] => .ok (.const 0)
    | [t] => .ok t
    | l => .ok (.sum l)
  | .func name a => do
    let na ← normalize a
    match na with
    | .errObj _ => .error .keyError
    | .var s => .ok (.func name (.var s))
    | _ => .ok (.errObj ("Unsupported argument in function: " ++ name))
  | .errObj _ => .error .keyError

/-- The list comprehension `[normalize(term) for term in expr["terms"]]`. -/
def normalizeTerms : List Node → Except PyExn (List Node)
  | [] => .ok []
  | t :: ts => do
    let nt ← normalize t
    let rest ← normalizeTerms ts
    .ok (nt :: rest)

/-- Step 1 of `normalize_prod`: normalize each factor in order, splicing
the factors of a factor that normalized to a `Prod`; a factor that
normalized to an error dict raises `KeyError` at `f["type"]`. -/
def prodFlatten : List Node → Except PyExn (List Node)
  | [] => .ok []
  | f :: fs => do
    let nf ← normalize f
    match nf with
    | .errObj _ => .error .keyError
    | .prod inner => do
      let rest ← prodFlatten fs
      .ok (inner ++ rest)
    | other => do
      let rest ← prodFlatten fs
      .ok (other :: rest)

end

/-! ## Pretty printer (`pretty_printer.py`) -/

/-- The `const` branch of `to_string`: integers print bare; a non-integral
value prints `num/den` in fraction mode and a floating approximation in
any other mode. -/
def constStr (q : ℚ) (mode : String) : String :=
  if q.den = 1 then toString q.num
  else if mode = "fraction" then toString q.num ++ "/" ++ toString q.den
  else toString (Float.ofInt q.num / Float.ofInt (Int.ofNat q.den))

/-- Python `s.startswith("-")`. -/
def startsDash (s : String) : Bool :=
  match s.data with
  | [] => false
  | c :: _ => c == '-'

/-- Python `s[1:]`. -/
def strTail (s : String) : String := ⟨s.data.drop 1⟩

mutual

/-- `to_string` of `pretty_printer.py`.  An error dict reaching it raises
`KeyError` at `expr["type"]`; a `Sum` with no terms raises `IndexError`
at `terms[0]`. -/
def to_string : Node → String → String → Except PyExn String
  | .const v, mode, _ => .ok (constStr v mode)
  | .var _, _, vn => .ok vn
  | .power b ex, mode, vn => do
    let bs ← to_string b mode vn
    let bs := match b with | .func _ _ => "(" ++ bs ++ ")" | _ => bs
    .ok (bs ++ "^" ++ toString ex)
  | .mul c e, mode, vn => do
    let is ← to_string e mode vn
    let is :=
      match e with
      | .sum _ => "(" ++ is ++ ")"
      | .prod _ => "(" ++ is ++ ")"
      | _ => is
    if c = -1 then .ok ("-" ++ is)
    else .ok (constStr c mode ++ is)
  | .prod fs, mode, vn => do
    let parts ← toStringList fs mode vn
    .ok (String.join parts)
  | .sum ts, mode, vn =>
    (match ts with
     | [] => .error .indexError
     | t0 :: rest => do
       let s0 ← to_string t0 mode vn
       sumJoin s0 rest mode vn)
  | .func name _, _, vn => .ok (name ++ "(" ++ vn ++ ")")
  | .errObj _, _, _ => .error .keyError

/-- The factor loop of the `prod` branch of `to_string`. -/
def toStringList : List Node → String → String → Except PyExn (List String)
  | [], _, _ => .ok []
  | f :: fs, mode, vn => do
    let s ← to_string f mode vn
    let rest ← toStringList fs mode vn
    .ok (s :: rest)

/-- The term loop of the `sum` branch of `to_string`: ` + ` between terms,
rewriting a `-`-leading term into ` - ` plus its tail. -/
def sumJoin : String → List Node → String → String → Except PyExn String
  | acc, [], _, _ => .ok acc
  | acc, t :: ts, mode, vn => do
    let s ← to_string t mode vn
    if startsDash s then sumJoin (acc ++ " - " ++ strTail s) ts mode vn
    else sumJoin (acc ++ " + " ++ s) ts mode vn

end

/-! ## Rewrite rules (`rules.py`) -/

/-- The module-level variable node of `rules.py`. -/
def VAR : Node := .var "x"

/-- `integrate_const`: `∫ c dx = c·x + C`. -/
def integrate_const (c : ℚ) : RuleOut :=
  .ok (.mul c VAR) [.str ("∫ " ++ pyStr c ++ " dx = " ++ pyStr c ++ "x + C")] true

/-- `integrate_var`: `∫ x dx = x²/2 + C` (the base is the input node). -/
def integrate_var (v : Node) : RuleOut :=
  .ok (.mul (fracInt 1 2) (.power v 2)) [.str "∫ x dx = x^2/2 + C"] true

/-- `integrate_power`: power rule `∫ xⁿ dx = xⁿ⁺¹/(n+1)` for `n ≠ -1`;
fails on a non-`Var` base (reading `base["type"]` of an error dict raises
`KeyError`). -/
def integrate_power (base : Node) (n : Int) : Except PyExn RuleOut :=
  match base with
  | .errObj _ => .error .keyError
  | .var s =>
    if n = -1 then .ok (.err "Integral of x^-1 needs Logarithms(not implemented yet)")
    else .ok (.ok (.mul (fracInt 1 (n + 1)) (.power (.var s) (n + 1)))
      [.str ("∫ x^" ++ toString n ++ " dx = x^" ++ toString (n + 1) ++ "/" ++
        toString (n + 1) ++ " + C")] true)
  | _ => .ok (.err "Power rule only supports x^n (no chain rule yet)")

/-- `integrate_func`: integrals of `sin`, `cos`, `exp`; reading
`arg["variable"]` of a non-`Var` argument raises `KeyError`. -/
def integrate_func (name : String) (arg : Node) : Except PyExn RuleOut :=
  match arg with
  | .var av =>
    if name = "sin" then
      .ok (.ok (.mul (-1) (.func "cos" (.var av)))
        [.str ("∫ sin(" ++ av ++ ") dx = -cos(" ++ av ++ ") + C")] true)
    else if name = "cos" then
      .ok (.ok (.func "sin" (.var av))
        [.str ("∫ cos(" ++ av ++ ") dx = sin(" ++ av ++ ") + C")] true)
    else if name = "exp" then
      .ok (.ok (.func "exp" (.var av))
        [.str ("∫ exp(" ++ av ++ ") dx = exp(" ++ av ++ ") + C")] true)
    else .ok (.err ("Unsupported function: " ++ name))
  | _ => .error .keyError

/-- `differentiate_const`: `d/dx(c) = 0`. -/
def differentiate_const (c : ℚ) : RuleOut :=
  .ok (.const 0) [.str ("d/dx(" ++ pyStr c ++ ") = 0")] false

/-- `differentiate_var`: `d/dx(x) = 1`. -/
def differentiate_var : RuleOut :=
  .ok (.const 1) [.str "d/dx(x) = 1"] false

/-- `differentiate_power`: `d/dx(xⁿ) = n·xⁿ⁻¹`, with a special case for
`n = 0`; fails on a non-`Var` base. -/
def differentiate_power (base : Node) (n : Int) : Except PyExn RuleOut :=
  match base with
  | .errObj _ => .error .keyError
  | .var s =>
    if n = 0 then .ok (.ok (.const 0) [.str "d/dx(x^0) = d/dx(1) = 0"] false)
    else .ok (.ok (.mul (mkRat n 1) (.power (.var s) (n - 1)))
      [.str ("d/dx(x^" ++ toString n ++ ") = " ++ toString n ++ "x^(" ++
        toString (n - 1) ++ ")")] false)
  | _ => .ok (.err "Power rule only supports x^n (no chain rule yet)")

/-- `differentiate_func`: derivatives of `sin`, `cos`, `exp`. -/
def differentiate_func (name : String) (arg : Node) : Except PyExn RuleOut :=
  match arg with
  | .var av =>
    if name = "sin" then
      .ok (.ok (.func "cos" (.var av))
        [.str ("d/dx(sin(" ++ av ++ ")) = cos(" ++ av ++ ")")] false)
    else if name = "cos" then
      .ok (.ok (.mul (-1) (.func "sin" (.var av)))
        [.str ("d/dx(cos(" ++ av ++ ")) = -sin(" ++ av ++ ")")] false)
    else if name = "exp" then
      .ok (.ok (.func "exp" (.var av))
        [.str ("d/dx(exp(" ++ av ++ ")) = exp(" ++ av ++ ")")] false)
    else .ok (.err ("Unsupported Function: " ++ name))
  | _ => .error .keyError

/-! ## Dispatchers (`core.py`) -/

/-- The tail of `core.integrate`: pass an error dict through unchanged;
otherwise re-normalize the rule's raw result, render it, and append the
constant-of-integration marker when the `constant` flag is truthy. -/
def integratePost (out : RuleOut) (mode vn : String) : Except PyExn COut :=
  match out with
  | .err r => .ok (.err r)
  | .ok res steps c => do
    let nr ← normalize res
    let s ← to_string nr mode vn
    .ok (.ok nr steps c (if c then s ++ " + C" else s))

/-- The tail of `core.differentiate`: like `integratePost` but without the
constant-of-integration marker (that code is absent there). -/
def differentiatePost (out : RuleOut) (mode vn : String) : Except PyExn COut :=
  match out with
  | .err r => .ok (.err r)
  | .ok res steps c => do
    let nr ← normalize res
    let s ← to_string nr mode vn
    .ok (.ok nr steps c s)

mutual

/-- `core.integrate`: dispatch on the node variant, then post-process.
`Prod` and unknown variants return `unsupported(..)` directly; an error
dict has no `"type"` key, so `expr.get("type")` is `None` and the
fall-through branch reports `Unsupported Expression Type: None`.

The mutually recursive rules `rules.integrate_mul` / `rules.integrate_sum`
(which call `core.integrate` back through the module import cycle) are
inlined into the `mul` / `sum` branches. -/
def integrate (e : Node) (mode vn : String) : Except PyExn COut :=
  match e with
  | .const v => integratePost (integrate_const v) mode vn
  | .var s => integratePost (integrate_var (.var s)) mode vn
  | .power b n => do integratePost (← integrate_power b n) mode vn
  | .mul c ex =>
    -- `rules.integrate_mul`: ∫ c·f dx = c·∫ f dx, with the c = 0 special
    -- case (which also sets the `constant` flag); a sub-failure is
    -- returned unchanged; a constant sub-result is folded into one Const
    -- (reading `result["result"]["type"]` of an error dict would raise).
    if c = 0 then integratePost (.ok (.const 0) [.str "Integral of 0 is 0"] true) mode vn
    else do
      match ← integrate ex mode vn with
      | .err r => integratePost (.err r) mode vn
      | .ok r rs _ _ =>
        match r with
        | .errObj _ => .error .keyError
        | .const v => integratePost (.ok (.const (qmul c v))
            (.str "Combined Constant Factors" :: rs) true) mode vn
        | r' => integratePost (.ok (.mul c r')
            (.str ("Extracted the constant " ++ pyStr c ++ ":") :: rs) true) mode vn
  | .prod _ => .ok (.err "Integration of products not implemented yet")
  | .sum ts => do
    -- `rules.integrate_sum`: integrate every term in order; the first
    -- failure is returned unchanged and later terms are not examined.
    match ← integrateSumAux ts mode vn with
    | .inl r => integratePost (.err r) mode vn
    | .inr (results, stepss) =>
      integratePost (.ok (.sum results)
        (.str "Using Linearity of Integration:" :: stepss) true) mode vn
  | .func name a => do integratePost (← integrate_func name a) mode vn
  | .errObj _ => .ok (.err "Unsupported Expression Type: None")

/-- The term loop of `rules.integrate_sum`: `inl` is the first failing
term's error dict; `inr` collects the term results and their traces. -/
def integrateSumAux (ts : List Node) (mode vn : String) :
    Except PyExn (String ⊕ (List Node × List Trace)) :=
  match ts with
  | [] => .ok (.inr ([], []))
  | t :: rest => do
    match ← integrate t mode vn with
    | .err r => .ok (.inl r)
    | .ok r rs _ _ =>
      match ← integrateSumAux rest mode vn with
      | .inl r2 => .ok (.inl r2)
      | .inr (es, ss) => .ok (.inr (r :: es, .list rs :: ss))

end

mutual

/-- `core.differentiate`: dispatch on the node variant, then post-process;
`Prod` always fails with the product-rule reason.  As with `integrate`,
the mutually recursive rules `rules.differentiate_mul` /
`rules.differentiate_sum` are inlined into their branches. -/
def differentiate (e : Node) (mode vn : String) : Except PyExn COut :=
  match e with
  | .const v => differentiatePost (differentiate_const v) mode vn
  | .var _ => differentiatePost differentiate_var mode vn
  | .power b n => do differentiatePost (← differentiate_power b n) mode vn
  | .mul c ex => do
    -- `rules.differentiate_mul`: d/dx(c·f) = c·f'; a sub-failure is
    -- returned unchanged (no zero or constant-folding special case).
    match ← differentiate ex mode vn with
    | .err r => differentiatePost (.err r) mode vn
    | .ok r rs _ _ =>
      differentiatePost (.ok (.mul c r)
        (.str ("Extracted the constant " ++ pyStr c ++ ":") :: rs) false) mode vn
  | .prod _ => .ok (.err "Product rule not implemented yet")
  | .sum ts => do
    -- `rules.differentiate_sum`: differentiate every term in order; the
    -- first failure is returned unchanged, later terms are not examined.
    match ← differentiateSumAux ts mode vn with
    | .inl r => differentiatePost (.err r) mode vn
    | .inr (results, stepss) =>
      differentiatePost (.ok (.sum results)
        (.str "Using Linearity of Differentiation:" :: stepss) false) mode vn
  | .func name a => do differentiatePost (← differentiate_func name a) mode vn
  | .errObj _ => .ok (.err "Unsupported Expression Type: None")

/-- The term loop of `rules.differentiate_sum`. -/
def differentiateSumAux (ts : List Node) (mode vn : String) :
    Except PyExn (String ⊕ (List Node × List Trace)) :=
  match ts with
  | [] => .ok (.inr ([], []))
  | t :: rest => do
    match ← differentiate t mode vn with
    | .err r => .ok (.inl r)
    | .ok r rs _ _ =>
      match ← differentiateSumAux rest mode vn with
      | .inl r2 => .ok (.inl r2)
      | .inr (es, ss) => .ok (.inr (r :: es, .list rs :: ss))

end

/-! ## The eight structural invariants of §3 -/

/-- Node is a `Const`. -/
def isConstN : Node → Bool
  | .const _ => true
  | _ => false

/-- Node is a `Mul`. -/
def isMulN : Node → Bool
  | .mul _ _ => true
  | _ => false

/-- Node is a `Var`. -/
def isVarN : Node → Bool
  | .var _ => true
  | _ => false

/-- Node is a `Sum`. -/
def isSumN : Node → Bool
  | .sum _ => true
  | _ => false

/-- Node is the error dict. -/
def isErrN : Node → Bool
  | .errObj _ => true
  | _ => false

/-- Node is a zero `Const`. -/
def isZeroConst : Node → Bool
  | .const v => v == 0
  | _ => false

/-- Node is an atomic factor: `Var`, `Power` or `Func` (invariant 4). -/
def isAtomicN : Node → Bool
  | .var _ => true
  | .power _ _ => true
  | .func _ _ => true
  | _ => false

/-- A `Power` used as a `Prod` factor must have a `Var` base
(invariant 6); every other node is unconstrained here. -/
def powFactorOk : Node → Bool
  | .power b _ => isVarN b
  | _ => true

/-- Supported function names (invariant 8). -/
def goodName (s : String) : Bool :=
  s == "sin" || s == "cos" || s == "exp"

/-- Prod factors are ordered by kind `Var < Power < Func` (invariant 5):
the `prod_order_key` values are non-decreasing along the factor list. -/
def kindsSorted : List Node → Bool
  | [] => true
  | [_] => true
  | a :: b :: r => (prod_order_key a ≤ prod_order_key b : Bool) && kindsSorted (b :: r)

mutual

/-- All eight §3 invariants, hereditarily:
1. a `Mul`'s inner is never `Const` and never `Mul`;
2. a `Power`'s exponent is ≥ 2;
3. a `Sum` has ≥ 2 terms, none a `Sum` or a zero `Const`;
4. a `Prod` has ≥ 2 factors, all atomic (hence no `Const`, no nested
   `Prod`);
5. `Prod` factors are ordered by kind `Var < Power < Func`;
6. a `Power` factor of a `Prod` has a `Var` base;
7. a `Func`'s argument is a bare `Var`;
8. a `Func`'s name is one of `sin`, `cos`, `exp`.
An error dict is not a canonical tree. -/
def invB : Node → Bool
  | .const _ => true
  | .var _ => true
  | .power b ex => (2 ≤ ex : Bool) && invB b
  | .mul _ e => !isConstN e && !isMulN e && invB e
  | .prod fs => (2 ≤ fs.length : Bool) &&
      fs.all (fun f => isAtomicN f && powFactorOk f) && kindsSorted fs && invBL fs
  | .sum ts => (2 ≤ ts.length : Bool) &&
      ts.all (fun t => !isSumN t && !isZeroConst t) && invBL ts
  | .func name a => goodName name && isVarN a && invB a
  | .errObj _ => false

/-- `invB` on every member of a list. -/
def invBL : List Node → Bool
  | [] => true
  | t :: ts => invB t && invBL ts

end

mutual

/-- Shape of the raw trees handed to `normalize` by the rewrite rules
(and preserved by `normalize` itself): every `Power` exponent is
non-negative, there is no `Prod` and no error dict, and every `Func` has
a supported name and a bare-`Var` argument. -/
def preB : Node → Bool
  | .const _ => true
  | .var _ => true
  | .power b ex => (0 ≤ ex : Bool) && preB b
  | .mul _ e => preB e
  | .prod _ => false
  | .sum ts => preBL ts
  | .func name a => goodName name && isVarN a
  | .errObj _ => false

/-- `preB` on every member of a list. -/
def preBL : List Node → Bool
  | [] => true
  | t :: ts => preB t && preBL ts

end

/-! ## Proof toolkit -/

@[simp] theorem ok_bind {α β : Type} (a : α) (f : α → Except PyExn β) :
    (Except.ok a >>= f : Except PyExn β) = f a := rfl

@[simp] theorem error_bind {α β : Type} (e : PyExn) (f : α → Except PyExn β) :
    (Except.error e >>= f : Except PyExn β) = .error e := rfl

@[simp] theorem pure_eq_ok {α : Type} (a : α) :
    (pure a : Except PyExn α) = .ok a := rfl

theorem invBL_iff (l : List Node) : invBL l = true ↔ ∀ x ∈ l, invB x = true := by
  induction l with
  | nil => simp [invBL]
  | cons t ts ih => simp [invBL, Bool.and_eq_true, ih]

theorem preBL_iff (l : List Node) : preBL l = true ↔ ∀ x ∈ l, preB x = true := by
  induction l with
  | nil => simp [preBL]
  | cons t ts ih => simp [preBL, Bool.and_eq_true, ih]

theorem normalize_const (v : ℚ) : normalize (.const v) = .ok (.const v) := rfl

theorem normalize_var (s : String) : normalize (.var s) = .ok (.var s) := rfl

theorem normalize_power (b : Node) (ex : Int) :
    normalize (.power b ex) =
      (do
        let nb ← normalize b
        if ex = 0 then .ok (.const 1)
        else if ex = 1 then .ok nb
        else .ok (.power nb ex)) := rfl

theorem normalize_mul (c : ℚ) (e : Node) :
    normalize (.mul c e) =
      (if c = 0 then .ok (.const 0)
       else do
         let ne ← normalize e
         match ne with
         | .errObj _ => .error .keyError
         | .const v => .ok (.const (qmul v c))
         | .mul c2 e2 => .ok (.mul (qmul c c2) e2)
         | ne' => if c = 1 then .ok ne' else .ok (.mul c ne')) := rfl

theorem normalize_sum (ts : List Node) :
    normalize (.sum ts) =
      (do
        let nts ← normalizeTerms ts
        let flat ← flattenSum nts
        match flat with
        | [] => .ok (.const 0)
        | [t] => .ok t
        | l => .ok (.sum l)) := rfl

theorem normalize_func (name : String) (a : Node) :
    normalize (.func name a) =
      (do
        let na ← normalize a
        match na with
        | .errObj _ => .error .keyError
        | .var s => .ok (.func name (.var s))
        | _ => .ok (.errObj ("Unsupported argument in function: " ++ name))) := rfl

theorem normalizeTerms_sound : ∀ ts nts : List Node, normalizeTerms ts = .ok nts →
    ∀ x ∈ nts, ∃ t ∈ ts, normalize t = .ok x := by
  intro ts
  induction ts with
  | nil =>
    intro nts h x hx
    simp only [normalizeTerms] at h
    cases h
    simp at hx
  | cons t ts ih =>
    intro nts h x hx
    simp only [normalizeTerms] at h
    cases ht : normalize t with
    | error e => rw [ht] at h; simp at h
    | ok nt =>
      rw [ht] at h
      simp only [ok_bind] at h
      cases hr : normalizeTerms ts with
      | error e => rw [hr] at h; simp at h
      | ok rest =>
        rw [hr] at h
        simp only [ok_bind] at h
        cases h
        rcases List.mem_cons.mp hx with hx1 | hx2
        · exact ⟨t, List.mem_cons_self t ts, hx1 ▸ ht⟩
        · rcases ih rest hr x hx2 with ⟨t', ht', hn⟩
          exact ⟨t', List.mem_cons_of_mem t ht', hn⟩

theorem flattenSum_sound : ∀ l fl : List Node, flattenSum l = .ok fl →
    (∀ t ∈ l, invB t = true ∧ preB t = true) →
    ∀ x ∈ fl, (invB x = true ∧ preB x = true) ∧
      (isSumN x = false ∧ isZeroConst x = false) := by
  intro l
  induction l with
  | nil =>
    intro fl h _ x hx
    simp only [flattenSum] at h
    cases h
    simp at hx
  | cons t ts ih =>
    intro fl h hall x hx
    have htOK : invB t = true ∧ preB t = true := hall t (List.mem_cons_self t ts)
    have hallts : ∀ u ∈ ts, invB u = true ∧ preB u = true :=
      fun u hu => hall u (List.mem_cons_of_mem t hu)
    cases t with
    | errObj r => simp [invB] at htOK
    | sum inner =>
      simp only [flattenSum] at h
      cases hr : flattenSum ts with
      | error e => rw [hr] at h; simp at h
      | ok rest =>
        rw [hr] at h
        simp only [ok_bind] at h
        cases h
        rcases List.mem_append.mp hx with hx1 | hx2
        · have hinv := htOK.1
          have hpre := htOK.2
          simp only [invB, Bool.and_eq_true, List.all_eq_true] at hinv
          simp only [preB] at hpre
          refine ⟨⟨(invBL_iff inner).mp hinv.2 x hx1, (preBL_iff inner).mp hpre x hx1⟩, ?_⟩
          have := hinv.1.2 x hx1
          simp only [Bool.and_eq_true, Bool.not_eq_true'] at this
          exact this
        · exact ih rest hr hallts x hx2
    | const v =>
      simp only [flattenSum] at h
      by_cases hv : v = 0
      · rw [if_pos hv] at h
        exact ih fl h hallts x hx
      · rw [if_neg hv] at h
        cases hr : flattenSum ts with
        | error e => rw [hr] at h; simp at h
        | ok rest =>
          rw [hr] at h
          simp only [ok_bind] at h
          cases h
          rcases List.mem_cons.mp hx with hx1 | hx2
          · subst hx1
            refine ⟨⟨rfl, rfl⟩, rfl, ?_⟩
            simp [isZeroConst, hv]
          · exact ih rest hr hallts x hx2
    | var s =>
      simp only [flattenSum] at h
      cases hr : flattenSum ts with
      | error e => rw [hr] at h; simp at h
      | ok rest =>
        rw [hr] at h; simp only [ok_bind] at h; cases h
        rcases List.mem_cons.mp hx with hx1 | hx2
        · subst hx1; exact ⟨htOK, rfl, rfl⟩
        · exact ih rest hr hallts x hx2
    | power b e =>
      simp only [flattenSum] at h
      cases hr : flattenSum ts with
      | error e2 => rw [hr] at h; simp at h
      | ok rest =>
        rw [hr] at h; simp only [ok_bind] at h; cases h
        rcases List.mem_cons.mp hx with hx1 | hx2
        · subst hx1; exact ⟨htOK, rfl, rfl⟩
        · exact ih rest hr hallts x hx2
    | mul c e =>
      simp only [flattenSum] at h
      cases hr : flattenSum ts with
      | error e2 => rw [hr] at h; simp at h
      | ok rest =>
        rw [hr] at h; simp only [ok_bind] at h; cases h
        rcases List.mem_cons.mp hx with hx1 | hx2
        · subst hx1; exact ⟨htOK, rfl, rfl⟩
        · exact ih rest hr hallts x hx2
    | prod fs =>
      simp only [flattenSum] at h
      cases hr : flattenSum ts with
      | error e2 => rw [hr] at h; simp at h
      | ok rest =>
        rw [hr] at h; simp only [ok_bind] at h; cases h
        rcases List.mem_cons.mp hx with hx1 | hx2
        · subst hx1; exact ⟨htOK, rfl, rfl⟩
        · exact ih rest hr hallts x hx2
    | func name a =>
      simp only [flattenSum] at h
      cases hr : flattenSum ts with
      | error e2 => rw [hr] at h; simp at h
      | ok rest =>
        rw [hr] at h; simp only [ok_bind] at h; cases h
        rcases List.mem_cons.mp hx with hx1 | hx2
        · subst hx1; exact ⟨htOK, rfl, rfl⟩
        · exact ih rest hr hallts x hx2

/-- Core lemma: on an input of the shape the rewrite rules produce
(`preB`), a `normalize` call that returns a node returns a node
satisfying all eight §3 invariants, and of that same shape again. -/
theorem normalize_inv : ∀ k : Nat, ∀ e : Node, sizeOf e ≤ k → preB e = true →
    ∀ n, normalize e = .ok n → invB n = true ∧ preB n = true := by
  intro k
  induction k with
  | zero =>
    intro e hsz
    exfalso
    cases e <;> simp_arith at hsz
  | succ k ih =>
    intro e hsz hpre n hnorm
    cases e with
    | const v => rw [normalize_const] at hnorm; cases hnorm; exact ⟨rfl, rfl⟩
    | var s => rw [normalize_var] at hnorm; cases hnorm; exact ⟨rfl, rfl⟩
    | errObj r => simp [preB] at hpre
    | prod fs => simp [preB] at hpre
    | power b ex =>
      rw [normalize_power] at hnorm
      simp only [preB, Bool.and_eq_true, decide_eq_true_eq] at hpre
      cases hb : normalize b with
      | error e2 => rw [hb] at hnorm; simp at hnorm
      | ok nb =>
        rw [hb] at hnorm
        simp only [ok_bind] at hnorm
        have hszb : sizeOf b ≤ k := by
          simp only [Node.power.sizeOf_spec] at hsz; omega
        have hnb := ih b hszb hpre.2 nb hb
        by_cases h0 : ex = 0
        · rw [if_pos h0] at hnorm; cases hnorm; exact ⟨rfl, rfl⟩
        · rw [if_neg h0] at hnorm
          by_cases h1 : ex = 1
          · rw [if_pos h1] at hnorm; cases hnorm; exact hnb
          · rw [if_neg h1] at hnorm; cases hnorm
            constructor
            · simp only [invB, Bool.and_eq_true, decide_eq_true_eq]
              exact ⟨by omega, hnb.1⟩
            · simp only [preB, Bool.and_eq_true, decide_eq_true_eq]
              exact ⟨by omega, hnb.2⟩
    | mul c e =>
      rw [normalize_mul] at hnorm
      simp only [preB] at hpre
      by_cases hc : c = 0
      · rw [if_pos hc] at hnorm; cases hnorm; exact ⟨rfl, rfl⟩
      · rw [if_neg hc] at hnorm
        cases he : normalize e with
        | error e2 => rw [he] at hnorm; simp at hnorm
        | ok ne =>
          rw [he] at hnorm; simp only [ok_bind] at hnorm
          have hsze : sizeOf e ≤ k := by
            simp only [Node.mul.sizeOf_spec] at hsz; omega
          have hne := ih e hsze hpre ne he
          cases ne with
          | errObj r => simp [invB] at hne
          | const v =>
            replace hnorm : Except.ok (Node.const (qmul v c)) = Except.ok n := hnorm
            cases hnorm; exact ⟨rfl, rfl⟩
          | mul c2 e2 =>
            replace hnorm : Except.ok (Node.mul (qmul c c2) e2) = Except.ok n := hnorm
            cases hnorm; exact ⟨hne.1, hne.2⟩
          | var s =>
            replace hnorm : (if c = 1 then Except.ok (Node.var s)
              else Except.ok (Node.mul c (Node.var s))) = Except.ok n := hnorm
            by_cases h1 : c = 1
            · rw [if_pos h1] at hnorm; cases hnorm; exact hne
            · rw [if_neg h1] at hnorm; cases hnorm
              exact ⟨by simp [invB, isConstN, isMulN, hne.1], hne.2⟩
          | power b2 ex2 =>
            replace hnorm : (if c = 1 then Except.ok (Node.power b2 ex2)
              else Except.ok (Node.mul c (Node.power b2 ex2))) = Except.ok n := hnorm
            by_cases h1 : c = 1
            · rw [if_pos h1] at hnorm; cases hnorm; exact hne
            · rw [if_neg h1] at hnorm; cases hnorm
              refine ⟨?_, hne.2⟩
              simp only [invB, isConstN, isMulN, Bool.not_false, Bool.true_and]
              exact hne.1
          | prod fs =>
            replace hnorm : (if c = 1 then Except.ok (Node.prod fs)
              else Except.ok (Node.mul c (Node.prod fs))) = Except.ok n := hnorm
            by_cases h1 : c = 1
            · rw [if_pos h1] at hnorm; cases hnorm; exact hne
            · rw [if_neg h1] at hnorm; cases hnorm
              refine ⟨?_, hne.2⟩
              simp only [invB, isConstN, isMulN, Bool.not_false, Bool.true_and]
              exact hne.1
          | sum ts =>
            replace hnorm : (if c = 1 then Except.ok (Node.sum ts)
              else Except.ok (Node.mul c (Node.sum ts))) = Except.ok n := hnorm
            by_cases h1 : c = 1
            · rw [if_pos h1] at hnorm; cases hnorm; exact hne
            · rw [if_neg h1] at hnorm; cases hnorm
              refine ⟨?_, hne.2⟩
              simp only [invB, isConstN, isMulN, Bool.not_false, Bool.true_and]
              exact hne.1
          | func name a =>
            replace hnorm : (if c = 1 then Except.ok (Node.func name a)
              else Except.ok (Node.mul c (Node.func name a))) = Except.ok n := hnorm
            by_cases h1 : c = 1
            · rw [if_pos h1] at hnorm; cases hnorm; exact hne
            · rw [if_neg h1] at hnorm; cases hnorm
              refine ⟨?_, hne.2⟩
              simp only [invB, isConstN, isMulN, Bool.not_false, Bool.true_and]
              exact hne.1
    | sum ts =>
      rw [normalize_sum] at hnorm
      simp only [preB] at hpre
      cases hterms : normalizeTerms ts with
      | error e2 => rw [hterms] at hnorm; simp at hnorm
      | ok nts =>
        rw [hterms] at hnorm; simp only [ok_bind] at hnorm
        cases hflat : flattenSum nts with
        | error e2 => rw [hflat] at hnorm; simp at hnorm
        | ok flat =>
          rw [hflat] at hnorm; simp only [ok_bind] at hnorm
          have hnts : ∀ x ∈ nts, invB x = true ∧ preB x = true := by
            intro x hx
            rcases normalizeTerms_sound ts nts hterms x hx with ⟨t, ht, hn⟩
            have hszt : sizeOf t ≤ k := by
              have h1 := List.sizeOf_lt_of_mem ht
              simp only [Node.sum.sizeOf_spec] at hsz
              omega
            exact ih t hszt ((preBL_iff ts).mp hpre t ht) x hn
          have hflatOK := flattenSum_sound nts flat hflat hnts
          cases flat with
          | nil =>
            replace hnorm : Except.ok (Node.const 0) = Except.ok n := hnorm
            cases hnorm; exact ⟨rfl, rfl⟩
          | cons t1 rest1 =>
            cases rest1 with
            | nil =>
              replace hnorm : Except.ok t1 = Except.ok n := hnorm
              cases hnorm
              exact (hflatOK _ (by simp)).1
            | cons t2 rest =>
              replace hnorm :
                  Except.ok (Node.sum (t1 :: t2 :: rest)) = Except.ok n := hnorm
              cases hnorm
              constructor
              · simp only [invB, Bool.and_eq_true, decide_eq_true_eq, List.all_eq_true]
                refine ⟨⟨by simp_arith, ?_⟩, ?_⟩
                · intro x hx
                  have := (hflatOK x hx).2
                  simp only [Bool.and_eq_true, Bool.not_eq_true']
                  exact this
                · exact (invBL_iff _).mpr fun x hx => (hflatOK x hx).1.1
              · exact (preBL_iff _).mpr fun x hx => (hflatOK x hx).1.2
    | func name a =>
      rw [normalize_func] at hnorm
      simp only [preB, Bool.and_eq_true] at hpre
      cases a with
      | var s =>
        rw [normalize_var] at hnorm
        simp only [ok_bind] at hnorm
        replace hnorm : Except.ok (Node.func name (.var s)) = Except.ok n := hnorm
        cases hnorm
        constructor
        · simp [invB, isVarN, hpre.1]
        · simp [preB, isVarN, hpre.1]
      | const v => simp [isVarN] at hpre
      | power b2 ex2 => simp [isVarN] at hpre
      | mul c2 e2 => simp [isVarN] at hpre
      | prod fs => simp [isVarN] at hpre
      | sum ts2 => simp [isVarN] at hpre
      | func n2 a2 => simp [isVarN] at hpre
      | errObj r => simp [isVarN] at hpre

/-- `normalize_inv` at the natural size bound. -/
theorem normalize_invariants {e n : Node} (hpre : preB e = true)
    (h : normalize e = .ok n) : invB n = true ∧ preB n = true :=
  normalize_inv (sizeOf e) e le_rfl hpre n h

theorem integratePost_ok {res : Node} {steps : List Trace} {b : Bool} {m vn : String}
    {r : Node} {s : List Trace} {c : Bool} {st : String}
    (h : integratePost (.ok res steps b) m vn = .ok (.ok r s c st)) :
    normalize res = .ok r ∧ c = b := by
  simp only [integratePost] at h
  cases hn : normalize res with
  | error e2 => rw [hn] at h; simp at h
  | ok nr =>
    rw [hn] at h; simp only [ok_bind] at h
    cases hs : to_string nr m vn with
    | error e2 => rw [hs] at h; simp at h
    | ok str =>
      rw [hs] at h; simp only [ok_bind] at h
      cases h
      exact ⟨rfl, rfl⟩

theorem differentiatePost_ok {res : Node} {steps : List Trace} {b : Bool} {m vn : String}
    {r : Node} {s : List Trace} {c : Bool} {st : String}
    (h : differentiatePost (.ok res steps b) m vn = .ok (.ok r s c st)) :
    normalize res = .ok r ∧ c = b := by
  simp only [differentiatePost] at h
  cases hn : normalize res with
  | error e2 => rw [hn] at h; simp at h
  | ok nr =>
    rw [hn] at h; simp only [ok_bind] at h
    cases hs : to_string nr m vn with
    | error e2 => rw [hs] at h; simp at h
    | ok str =>
      rw [hs] at h; simp only [ok_bind] at h
      cases h
      exact ⟨rfl, rfl⟩

theorem integrateSumAux_sound : ∀ (ts : List Node) (m vn : String)
    (es : List Node) (ss : List Trace),
    integrateSumAux ts m vn = .ok (.inr (es, ss)) →
    ∀ x ∈ es, ∃ t ∈ ts, ∃ s2 c2 st2, integrate t m vn = .ok (.ok x s2 c2 st2) := by
  intro ts
  induction ts with
  | nil =>
    intro m vn es ss h x hx
    replace h : (Except.ok (.inr (([] : List Node), ([] : List Trace))) :
        Except PyExn (String ⊕ (List Node × List Trace))) = .ok (.inr (es, ss)) := h
    cases h
    simp at hx
  | cons t ts ih =>
    intro m vn es ss h x hx
    simp only [integrateSumAux] at h
    cases hint : integrate t m vn with
    | error e2 => rw [hint] at h; simp at h
    | ok out =>
      rw [hint] at h; simp only [ok_bind] at h
      cases out with
      | err r2 =>
        replace h : (Except.ok (.inl r2) :
            Except PyExn (String ⊕ (List Node × List Trace))) = .ok (.inr (es, ss)) := h
        simp at h
      | ok r2 rs2 c2 st2 =>
        cases haux : integrateSumAux ts m vn with
        | error e2 => rw [haux] at h; simp at h
        | ok res0 =>
          rw [haux] at h; simp only [ok_bind] at h
          cases res0 with
          | inl r3 =>
            replace h : (Except.ok (.inl r3) :
                Except PyExn (String ⊕ (List Node × List Trace))) = .ok (.inr (es, ss)) := h
            simp at h
          | inr pr =>
            obtain ⟨es0, ss0⟩ := pr
            replace h : (Except.ok (.inr (r2 :: es0, Trace.list rs2 :: ss0)) :
                Except PyExn (String ⊕ (List Node × List Trace))) = .ok (.inr (es, ss)) := h
            cases h
            rcases List.mem_cons.mp hx with hx1 | hx2
            · exact ⟨t, List.mem_cons_self t ts, rs2, c2, st2, hx1 ▸ hint⟩
            · rcases ih m vn es0 ss0 haux x hx2 with ⟨t', ht', w⟩
              exact ⟨t', List.mem_cons_of_mem t ht', w⟩

theorem differentiateSumAux_sound : ∀ (ts : List Node) (m vn : String)
    (es : List Node) (ss : List Trace),
    differentiateSumAux ts m vn = .ok (.inr (es, ss)) →
    ∀ x ∈ es, ∃ t ∈ ts, ∃ s2 c2 st2, differentiate t m vn = .ok (.ok x s2 c2 st2) := by
  intro ts
  induction ts with
  | nil =>
    intro m vn es ss h x hx
    replace h : (Except.ok (.inr (([] : List Node), ([] : List Trace))) :
        Except PyExn (String ⊕ (List Node × List Trace))) = .ok (.inr (es, ss)) := h
    cases h
    simp at hx
  | cons t ts ih =>
    intro m vn es ss h x hx
    simp only [differentiateSumAux] at h
    cases hint : differentiate t m vn with
    | error e2 => rw [hint] at h; simp at h
    | ok out =>
      rw [hint] at h; simp only [ok_bind] at h
      cases out with
      | err r2 =>
        replace h : (Except.ok (.inl r2) :
            Except PyExn (String ⊕ (List Node × List Trace))) = .ok (.inr (es, ss)) := h
        simp at h
      | ok r2 rs2 c2 st2 =>
        cases haux : differentiateSumAux ts m vn with
        | error e2 => rw [haux] at h; simp at h
        | ok res0 =>
          rw [haux] at h; simp only [ok_bind] at h
          cases res0 with
          | inl r3 =>
            replace h : (Except.ok (.inl r3) :
                Except PyExn (String ⊕ (List Node × List Trace))) = .ok (.inr (es, ss)) := h
            simp at h
          | inr pr =>
            obtain ⟨es0, ss0⟩ := pr
            replace h : (Except.ok (.inr (r2 :: es0, Trace.list rs2 :: ss0)) :
                Except PyExn (String ⊕ (List Node × List Trace))) = .ok (.inr (es, ss)) := h
            cases h
            rcases List.mem_cons.mp hx with hx1 | hx2
            · exact ⟨t, List.mem_cons_self t ts, rs2, c2, st2, hx1 ▸ hint⟩
            · rcases ih m vn es0 ss0 haux x hx2 with ⟨t', ht', w⟩
              exact ⟨t', List.mem_cons_of_mem t ht', w⟩


/-- Invariant preservation for `integrate`: a successful call on a
canonical input returns a canonical, `Prod`-free result. -/
theorem integrate_inv : ∀ k : Nat, ∀ e : Node, sizeOf e ≤ k → invB e = true →
    ∀ m vn r s c st, integrate e m vn = .ok (.ok r s c st) →
      invB r = true ∧ preB r = true := by
  intro k
  induction k with
  | zero => intro e hsz; exfalso; cases e <;> simp_arith at hsz
  | succ k ih =>
    intro e hsz hinv m vn r s c st hint
    cases e with
    | errObj r2 =>
      replace hint : (Except.ok (COut.err "Unsupported Expression Type: None") :
          Except PyExn COut) = .ok (.ok r s c st) := hint
      simp at hint
    | prod fs =>
      replace hint : (Except.ok (COut.err "Integration of products not implemented yet") :
          Except PyExn COut) = .ok (.ok r s c st) := hint
      simp at hint
    | const v =>
      replace hint : integratePost (integrate_const v) m vn = .ok (.ok r s c st) := hint
      exact normalize_invariants (by rfl) (integratePost_ok hint).1
    | var s0 =>
      replace hint : integratePost (integrate_var (.var s0)) m vn = .ok (.ok r s c st) := hint
      exact normalize_invariants (by rfl) (integratePost_ok hint).1
    | power b n0 =>
      simp only [invB, Bool.and_eq_true, decide_eq_true_eq] at hinv
      cases b with
      | var s0 =>
        by_cases hm1 : n0 = -1
        · exfalso; omega
        · replace hint : integratePost
              (.ok (.mul (fracInt 1 (n0 + 1)) (.power (.var s0) (n0 + 1)))
                [.str ("∫ x^" ++ toString n0 ++ " dx = x^" ++ toString (n0 + 1) ++ "/" ++
                  toString (n0 + 1) ++ " + C")] true) m vn = .ok (.ok r s c st) := by
            have h0 : integrate (.power (.var s0) n0) m vn =
                (integrate_power (.var s0) n0 >>= fun out => integratePost out m vn) := rfl
            rw [h0, integrate_power, if_neg hm1] at hint
            simpa using hint
          refine normalize_invariants ?_ (integratePost_ok hint).1
          simp [preB, isVarN, goodName]
          omega
      | const v2 =>
        replace hint : (Except.ok (COut.err "Power rule only supports x^n (no chain rule yet)") :
            Except PyExn COut) = .ok (.ok r s c st) := hint
        simp at hint
      | power b2 e2 =>
        replace hint : (Except.ok (COut.err "Power rule only supports x^n (no chain rule yet)") :
            Except PyExn COut) = .ok (.ok r s c st) := hint
        simp at hint
      | mul c2 e2 =>
        replace hint : (Except.ok (COut.err "Power rule only supports x^n (no chain rule yet)") :
            Except PyExn COut) = .ok (.ok r s c st) := hint
        simp at hint
      | prod fs2 =>
        replace hint : (Except.ok (COut.err "Power rule only supports x^n (no chain rule yet)") :
            Except PyExn COut) = .ok (.ok r s c st) := hint
        simp at hint
      | sum ts2 =>
        replace hint : (Except.ok (COut.err "Power rule only supports x^n (no chain rule yet)") :
            Except PyExn COut) = .ok (.ok r s c st) := hint
        simp at hint
      | func n2 a2 =>
        replace hint : (Except.ok (COut.err "Power rule only supports x^n (no chain rule yet)") :
            Except PyExn COut) = .ok (.ok r s c st) := hint
        simp at hint
      | errObj r2 =>
        replace hint : (Except.error PyExn.keyError : Except PyExn COut) =
          .ok (.ok r s c st) := hint
        simp at hint
    | mul c0 ex =>
      simp only [invB, Bool.and_eq_true] at hinv
      have h0 : integrate (.mul c0 ex) m vn =
          (if c0 = 0 then integratePost (.ok (.const 0) [.str "Integral of 0 is 0"] true) m vn
           else do
             match ← integrate ex m vn with
             | .err r2 => integratePost (.err r2) m vn
             | .ok r2 rs2 _ _ =>
               match r2 with
               | .errObj _ => .error .keyError
               | .const v2 => integratePost (.ok (.const (qmul c0 v2))
                   (.str "Combined Constant Factors" :: rs2) true) m vn
               | r2' => integratePost (.ok (.mul c0 r2')
                   (.str ("Extracted the constant " ++ pyStr c0 ++ ":") :: rs2) true) m vn) := rfl
      rw [h0] at hint
      by_cases hc : c0 = 0
      · rw [if_pos hc] at hint
        exact normalize_invariants (by rfl) (integratePost_ok hint).1
      · rw [if_neg hc] at hint
        cases hsub : integrate ex m vn with
        | error e2 => rw [hsub] at hint; simp at hint
        | ok out =>
          rw [hsub] at hint; simp only [ok_bind] at hint
          cases out with
          | err r2 =>
            replace hint : (Except.ok (COut.err r2) : Except PyExn COut) =
              .ok (.ok r s c st) := hint
            simp at hint
          | ok r2 rs2 c2 st2 =>
            have hsze : sizeOf ex ≤ k := by
              simp only [Node.mul.sizeOf_spec] at hsz; omega
            have hsubInv := ih ex hsze hinv.2 m vn r2 rs2 c2 st2 hsub
            cases r2 with
            | errObj r3 =>
              replace hint : (Except.error PyExn.keyError : Except PyExn COut) =
                .ok (.ok r s c st) := hint
              simp at hint
            | const v2 => exact normalize_invariants (by rfl) (integratePost_ok hint).1
            | var s2 =>
              refine normalize_invariants ?_ (integratePost_ok hint).1
              exact hsubInv.2
            | power b2 e2 =>
              refine normalize_invariants ?_ (integratePost_ok hint).1
              simpa [preB] using hsubInv.2
            | mul c2b e2 =>
              refine normalize_invariants ?_ (integratePost_ok hint).1
              simpa [preB] using hsubInv.2
            | prod fs2 =>
              refine normalize_invariants ?_ (integratePost_ok hint).1
              simpa [preB] using hsubInv.2
            | sum ts2 =>
              refine normalize_invariants ?_ (integratePost_ok hint).1
              simpa [preB] using hsubInv.2
            | func n2 a2 =>
              refine normalize_invariants ?_ (integratePost_ok hint).1
              simpa [preB] using hsubInv.2
    | sum ts =>
      simp only [invB, Bool.and_eq_true] at hinv
      have h0 : integrate (.sum ts) m vn =
          (do
            match ← integrateSumAux ts m vn with
            | .inl r2 => integratePost (.err r2) m vn
            | .inr (results, stepss) =>
              integratePost (.ok (.sum results)
                (.str "Using Linearity of Integration:" :: stepss) true) m vn) := rfl
      rw [h0] at hint
      cases haux : integrateSumAux ts m vn with
      | error e2 => rw [haux] at hint; simp at hint
      | ok res0 =>
        rw [haux] at hint; simp only [ok_bind] at hint
        cases res0 with
        | inl r2 =>
          replace hint : (Except.ok (COut.err r2) : Except PyExn COut) =
            .ok (.ok r s c st) := hint
          simp at hint
        | inr pr =>
          obtain ⟨es, ss⟩ := pr
          refine normalize_invariants ?_ (integratePost_ok hint).1
          have hmem : ∀ x ∈ es, preB x = true := by
            intro x hx
            rcases integrateSumAux_sound ts m vn es ss haux x hx with
              ⟨t, ht, s3, c3, st3, hint3⟩
            have hszt : sizeOf t ≤ k := by
              have h1 := List.sizeOf_lt_of_mem ht
              simp only [Node.sum.sizeOf_spec] at hsz
              omega
            exact (ih t hszt ((invBL_iff ts).mp hinv.2 t ht) m vn x s3 c3 st3 hint3).2
          simpa [preB] using (preBL_iff es).mpr hmem
    | func name a =>
      cases a with
      | var av =>
        have h0 : integrate (.func name (.var av)) m vn =
            (integrate_func name (.var av) >>= fun out => integratePost out m vn) := rfl
        rw [h0, integrate_func] at hint
        by_cases h1 : name = "sin"
        · rw [if_pos h1] at hint
          simp only [ok_bind] at hint
          exact normalize_invariants (by rfl) (integratePost_ok hint).1
        · rw [if_neg h1] at hint
          by_cases h2 : name = "cos"
          · rw [if_pos h2] at hint
            simp only [ok_bind] at hint
            exact normalize_invariants (by rfl) (integratePost_ok hint).1
          · rw [if_neg h2] at hint
            by_cases h3 : name = "exp"
            · rw [if_pos h3] at hint
              simp only [ok_bind] at hint
              exact normalize_invariants (by rfl) (integratePost_ok hint).1
            · rw [if_neg h3] at hint
              simp only [ok_bind] at hint
              replace hint : (Except.ok (COut.err ("Unsupported function: " ++ name)) :
                  Except PyExn COut) = .ok (.ok r s c st) := hint
              simp at hint
      | const v2 => simp [invB, isVarN] at hinv
      | power b2 e2 => simp [invB, isVarN] at hinv
      | mul c2 e2 => simp [invB, isVarN] at hinv
      | prod fs2 => simp [invB, isVarN] at hinv
      | sum ts2 => simp [invB, isVarN] at hinv
      | func n2 a2 => simp [invB, isVarN] at hinv
      | errObj r2 => simp [invB, isVarN] at hinv


/-- Invariant preservation for `differentiate`: a successful call on a
canonical input returns a canonical, `Prod`-free result. -/
theorem differentiate_inv : ∀ k : Nat, ∀ e : Node, sizeOf e ≤ k → invB e = true →
    ∀ m vn r s c st, differentiate e m vn = .ok (.ok r s c st) →
      invB r = true ∧ preB r = true := by
  intro k
  induction k with
  | zero => intro e hsz; exfalso; cases e <;> simp_arith at hsz
  | succ k ih =>
    intro e hsz hinv m vn r s c st hint
    cases e with
    | errObj r2 =>
      replace hint : (Except.ok (COut.err "Unsupported Expression Type: None") :
          Except PyExn COut) = .ok (.ok r s c st) := hint
      simp at hint
    | prod fs =>
      replace hint : (Except.ok (COut.err "Product rule not implemented yet") :
          Except PyExn COut) = .ok (.ok r s c st) := hint
      simp at hint
    | const v =>
      replace hint : differentiatePost (differentiate_const v) m vn = .ok (.ok r s c st) := hint
      exact normalize_invariants (by rfl) (differentiatePost_ok hint).1
    | var s0 =>
      replace hint : differentiatePost differentiate_var m vn = .ok (.ok r s c st) := hint
      exact normalize_invariants (by rfl) (differentiatePost_ok hint).1
    | power b n0 =>
      simp only [invB, Bool.and_eq_true, decide_eq_true_eq] at hinv
      cases b with
      | var s0 =>
        have h0 : differentiate (.power (.var s0) n0) m vn =
            (differentiate_power (.var s0) n0 >>= fun out => differentiatePost out m vn) := rfl
        rw [h0, differentiate_power] at hint
        by_cases hz : n0 = 0
        · rw [if_pos hz] at hint
          simp only [ok_bind] at hint
          exact normalize_invariants (by rfl) (differentiatePost_ok hint).1
        · rw [if_neg hz] at hint
          simp only [ok_bind] at hint
          refine normalize_invariants ?_ (differentiatePost_ok hint).1
          simp [preB, isVarN, goodName]
          omega
      | const v2 =>
        replace hint : (Except.ok (COut.err "Power rule only supports x^n (no chain rule yet)") :
            Except PyExn COut) = .ok (.ok r s c st) := hint
        simp at hint
      | power b2 e2 =>
        replace hint : (Except.ok (COut.err "Power rule only supports x^n (no chain rule yet)") :
            Except PyExn COut) = .ok (.ok r s c st) := hint
        simp at hint
      | mul c2 e2 =>
        replace hint : (Except.ok (COut.err "Power rule only supports x^n (no chain rule yet)") :
            Except PyExn COut) = .ok (.ok r s c st) := hint
        simp at hint
      | prod fs2 =>
        replace hint : (Except.ok (COut.err "Power rule only supports x^n (no chain rule yet)") :
            Except PyExn COut) = .ok (.ok r s c st) := hint
        simp at hint
      | sum ts2 =>
        replace hint : (Except.ok (COut.err "Power rule only supports x^n (no chain rule yet)") :
            Except PyExn COut) = .ok (.ok r s c st) := hint
        simp at hint
      | func n2 a2 =>
        replace hint : (Except.ok (COut.err "Power rule only supports x^n (no chain rule yet)") :
            Except PyExn COut) = .ok (.ok r s c st) := hint
        simp at hint
      | errObj r2 =>
        replace hint : (Except.error PyExn.keyError : Except PyExn COut) =
          .ok (.ok r s c st) := hint
        simp at hint
    | mul c0 ex =>
      simp only [invB, Bool.and_eq_true] at hinv
      have h0 : differentiate (.mul c0 ex) m vn =
          (do
            match ← differentiate ex m vn with
            | .err r2 => differentiatePost (.err r2) m vn
            | .ok r2 rs2 _ _ =>
              differentiatePost (.ok (.mul c0 r2)
                (.str ("Extracted the constant " ++ pyStr c0 ++ ":") :: rs2) false) m vn) := rfl
      rw [h0] at hint
      cases hsub : differentiate ex m vn with
      | error e2 => rw [hsub] at hint; simp at hint
      | ok out =>
        rw [hsub] at hint; simp only [ok_bind] at hint
        cases out with
        | err r2 =>
          replace hint : (Except.ok (COut.err r2) : Except PyExn COut) =
            .ok (.ok r s c st) := hint
          simp at hint
        | ok r2 rs2 c2 st2 =>
          have hsze : sizeOf ex ≤ k := by
            simp only [Node.mul.sizeOf_spec] at hsz; omega
          have hsubInv := ih ex hsze hinv.2 m vn r2 rs2 c2 st2 hsub
          refine normalize_invariants ?_ (differentiatePost_ok hint).1
          exact hsubInv.2
    | sum ts =>
      simp only [invB, Bool.and_eq_true] at hinv
      have h0 : differentiate (.sum ts) m vn =
          (do
            match ← differentiateSumAux ts m vn with
            | .inl r2 => differentiatePost (.err r2) m vn
            | .inr (results, stepss) =>
              differentiatePost (.ok (.sum results)
                (.str "Using Linearity of Differentiation:" :: stepss) false) m vn) := rfl
      rw [h0] at hint
      cases haux : differentiateSumAux ts m vn with
      | error e2 => rw [haux] at hint; simp at hint
      | ok res0 =>
        rw [haux] at hint; simp only [ok_bind] at hint
        cases res0 with
        | inl r2 =>
          replace hint : (Except.ok (COut.err r2) : Except PyExn COut) =
            .ok (.ok r s c st) := hint
          simp at hint
        | inr pr =>
          obtain ⟨es, ss⟩ := pr
          refine normalize_invariants ?_ (differentiatePost_ok hint).1
          have hmem : ∀ x ∈ es, preB x = true := by
            intro x hx
            rcases differentiateSumAux_sound ts m vn es ss haux x hx with
              ⟨t, ht, s3, c3, st3, hint3⟩
            have hszt : sizeOf t ≤ k := by
              have h1 := List.sizeOf_lt_of_mem ht
              simp only [Node.sum.sizeOf_spec] at hsz
              omega
            exact (ih t hszt ((invBL_iff ts).mp hinv.2 t ht) m vn x s3 c3 st3 hint3).2
          simpa [preB] using (preBL_iff es).mpr hmem
    | func name a =>
      cases a with
      | var av =>
        have h0 : differentiate (.func name (.var av)) m vn =
            (differentiate_func name (.var av) >>= fun out => differentiatePost out m vn) := rfl
        rw [h0, differentiate_func] at hint
        by_cases h1 : name = "sin"
        · rw [if_pos h1] at hint
          simp only [ok_bind] at hint
          exact normalize_invariants (by rfl) (differentiatePost_ok hint).1
        · rw [if_neg h1] at hint
          by_cases h2 : name = "cos"
          · rw [if_pos h2] at hint
            simp only [ok_bind] at hint
            exact normalize_invariants (by rfl) (differentiatePost_ok hint).1
          · rw [if_neg h2] at hint
            by_cases h3 : name = "exp"
            · rw [if_pos h3] at hint
              simp only [ok_bind] at hint
              exact normalize_invariants (by rfl) (differentiatePost_ok hint).1
            · rw [if_neg h3] at hint
              simp only [ok_bind] at hint
              replace hint : (Except.ok (COut.err ("Unsupported Function: " ++ name)) :
                  Except PyExn COut) = .ok (.ok r s c st) := hint
              simp at hint
      | const v2 => simp [invB, isVarN] at hinv
      | power b2 e2 => simp [invB, isVarN] at hinv
      | mul c2 e2 => simp [invB, isVarN] at hinv
      | prod fs2 => simp [invB, isVarN] at hinv
      | sum ts2 => simp [invB, isVarN] at hinv
      | func n2 a2 => simp [invB, isVarN] at hinv
      | errObj r2 => simp [invB, isVarN] at hinv


/-- The `constant` flag of every successful `integrate` call is `true`
(every success branch of every integration rule, including the
zero-coefficient `Mul` special case, puts `"constant": True` in its
result dict, and the dispatcher passes it through). -/
theorem integrate_constant_flag : ∀ (e : Node) (m vn : String) (r : Node)
    (s : List Trace) (c : Bool) (st : String),
    integrate e m vn = .ok (.ok r s c st) → c = true := by
  intro e m vn r s c st hint
  cases e with
  | errObj r2 =>
    replace hint : (Except.ok (COut.err "Unsupported Expression Type: None") :
        Except PyExn COut) = .ok (.ok r s c st) := hint
    simp at hint
  | prod fs =>
    replace hint : (Except.ok (COut.err "Integration of products not implemented yet") :
        Except PyExn COut) = .ok (.ok r s c st) := hint
    simp at hint
  | const v =>
    replace hint : integratePost (integrate_const v) m vn = .ok (.ok r s c st) := hint
    exact (integratePost_ok hint).2
  | var s0 =>
    replace hint : integratePost (integrate_var (.var s0)) m vn = .ok (.ok r s c st) := hint
    exact (integratePost_ok hint).2
  | power b n0 =>
    cases b with
    | var s0 =>
      have h0 : integrate (.power (.var s0) n0) m vn =
          (integrate_power (.var s0) n0 >>= fun out => integratePost out m vn) := rfl
      rw [h0, integrate_power] at hint
      by_cases hm1 : n0 = -1
      · rw [if_pos hm1] at hint
        simp only [ok_bind] at hint
        replace hint : (Except.ok
            (COut.err "Integral of x^-1 needs Logarithms(not implemented yet)") :
            Except PyExn COut) = .ok (.ok r s c st) := hint
        simp at hint
      · rw [if_neg hm1] at hint
        simp only [ok_bind] at hint
        exact (integratePost_ok hint).2
    | const v2 =>
      replace hint : (Except.ok (COut.err "Power rule only supports x^n (no chain rule yet)") :
          Except PyExn COut) = .ok (.ok r s c st) := hint
      simp at hint
    | power b2 e2 =>
      replace hint : (Except.ok (COut.err "Power rule only supports x^n (no chain rule yet)") :
          Except PyExn COut) = .ok (.ok r s c st) := hint
      simp at hint
    | mul c2 e2 =>
      replace hint : (Except.ok (COut.err "Power rule only supports x^n (no chain rule yet)") :
          Except PyExn COut) = .ok (.ok r s c st) := hint
      simp at hint
    | prod fs2 =>
      replace hint : (Except.ok (COut.err "Power rule only supports x^n (no chain rule yet)") :
          Except PyExn COut) = .ok (.ok r s c st) := hint
      simp at hint
    | sum ts2 =>
      replace hint : (Except.ok (COut.err "Power rule only supports x^n (no chain rule yet)") :
          Except PyExn COut) = .ok (.ok r s c st) := hint
      simp at hint
    | func n2 a2 =>
      replace hint : (Except.ok (COut.err "Power rule only supports x^n (no chain rule yet)") :
          Except PyExn COut) = .ok (.ok r s c st) := hint
      simp at hint
    | errObj r2 =>
      replace hint : (Except.error PyExn.keyError : Except PyExn COut) =
        .ok (.ok r s c st) := hint
      simp at hint
  | mul c0 ex =>
    have h0 : integrate (.mul c0 ex) m vn =
        (if c0 = 0 then integratePost (.ok (.const 0) [.str "Integral of 0 is 0"] true) m vn
         else do
           match ← integrate ex m vn with
           | .err r2 => integratePost (.err r2) m vn
           | .ok r2 rs2 _ _ =>
             match r2 with
             | .errObj _ => .error .keyError
             | .const v2 => integratePost (.ok (.const (qmul c0 v2))
                 (.str "Combined Constant Factors" :: rs2) true) m vn
             | r2' => integratePost (.ok (.mul c0 r2')
                 (.str ("Extracted the constant " ++ pyStr c0 ++ ":") :: rs2) true) m vn) := rfl
    rw [h0] at hint
    by_cases hc : c0 = 0
    · rw [if_pos hc] at hint
      exact (integratePost_ok hint).2
    · rw [if_neg hc] at hint
      cases hsub : integrate ex m vn with
      | error e2 => rw [hsub] at hint; simp at hint
      | ok out =>
        rw [hsub] at hint; simp only [ok_bind] at hint
        cases out with
        | err r2 =>
          replace hint : (Except.ok (COut.err r2) : Except PyExn COut) =
            .ok (.ok r s c st) := hint
          simp at hint
        | ok r2 rs2 c2 st2 =>
          cases r2 with
          | errObj r3 =>
            replace hint : (Except.error PyExn.keyError : Except PyExn COut) =
              .ok (.ok r s c st) := hint
            simp at hint
          | const v2 => exact (integratePost_ok hint).2
          | var s2 => exact (integratePost_ok hint).2
          | power b2 e2 => exact (integratePost_ok hint).2
          | mul c2b e2 => exact (integratePost_ok hint).2
          | prod fs2 => exact (integratePost_ok hint).2
          | sum ts2 => exact (integratePost_ok hint).2
          | func n2 a2 => exact (integratePost_ok hint).2
  | sum ts =>
    have h0 : integrate (.sum ts) m vn =
        (do
          match ← integrateSumAux ts m vn with
          | .inl r2 => integratePost (.err r2) m vn
          | .inr (results, stepss) =>
            integratePost (.ok (.sum results)
              (.str "Using Linearity of Integration:" :: stepss) true) m vn) := rfl
    rw [h0] at hint
    cases haux : integrateSumAux ts m vn with
    | error e2 => rw [haux] at hint; simp at hint
    | ok res0 =>
      rw [haux] at hint; simp only [ok_bind] at hint
      cases res0 with
      | inl r2 =>
        replace hint : (Except.ok (COut.err r2) : Except PyExn COut) =
          .ok (.ok r s c st) := hint
        simp at hint
      | inr pr =>
        obtain ⟨es, ss⟩ := pr
        exact (integratePost_ok hint).2
  | func name a =>
    cases a with
    | var av =>
      have h0 : integrate (.func name (.var av)) m vn =
          (integrate_func name (.var av) >>= fun out => integratePost out m vn) := rfl
      rw [h0, integrate_func] at hint
      by_cases h1 : name = "sin"
      · rw [if_pos h1] at hint
        simp only [ok_bind] at hint
        exact (integratePost_ok hint).2
      · rw [if_neg h1] at hint
        by_cases h2 : name = "cos"
        · rw [if_pos h2] at hint
          simp only [ok_bind] at hint
          exact (integratePost_ok hint).2
        · rw [if_neg h2] at hint
          by_cases h3 : name = "exp"
          · rw [if_pos h3] at hint
            simp only [ok_bind] at hint
            exact (integratePost_ok hint).2
          · rw [if_neg h3] at hint
            simp only [ok_bind] at hint
            replace hint : (Except.ok (COut.err ("Unsupported function: " ++ name)) :
                Except PyExn COut) = .ok (.ok r s c st) := hint
            simp at hint
    | const v2 =>
      replace hint : (Except.error PyExn.keyError : Except PyExn COut) =
        .ok (.ok r s c st) := hint
      simp at hint
    | power b2 e2 =>
      replace hint : (Except.error PyExn.keyError : Except PyExn COut) =
        .ok (.ok r s c st) := hint
      simp at hint
    | mul c2 e2 =>
      replace hint : (Except.error PyExn.keyError : Except PyExn COut) =
        .ok (.ok r s c st) := hint
      simp at hint
    | prod fs2 =>
      replace hint : (Except.error PyExn.keyError : Except PyExn COut) =
        .ok (.ok r s c st) := hint
      simp at hint
    | sum ts2 =>
      replace hint : (Except.error PyExn.keyError : Except PyExn COut) =
        .ok (.ok r s c st) := hint
      simp at hint
    | func n2 a2 =>
      replace hint : (Except.error PyExn.keyError : Except PyExn COut) =
        .ok (.ok r s c st) := hint
      simp at hint
    | errObj r2 =>
      replace hint : (Except.error PyExn.keyError : Except PyExn COut) =
        .ok (.ok r s c st) := hint
      simp at hint


/-- The term loop of `integrate_sum` returns the first failing term's
error dict, no matter what terms follow it, provided the terms before it
all succeed. -/
theorem integrateSumAux_firstFail : ∀ (ts1 : List Node) (t : Node) (ts2 : List Node)
    (m vn reason : String),
    (∀ u ∈ ts1, ∃ r s c st, integrate u m vn = .ok (.ok r s c st)) →
    integrate t m vn = .ok (.err reason) →
    integrateSumAux (ts1 ++ t :: ts2) m vn = .ok (.inl reason) := by
  intro ts1
  induction ts1 with
  | nil =>
    intro t ts2 m vn reason _ hft
    have h0 : integrateSumAux (t :: ts2) m vn =
        (do
          match ← integrate t m vn with
          | .err r2 => .ok (.inl r2)
          | .ok r2 rs2 _ _ =>
            match ← integrateSumAux ts2 m vn with
            | .inl r3 => .ok (.inl r3)
            | .inr (es, ss) => .ok (.inr (r2 :: es, .list rs2 :: ss))) := rfl
    rw [List.nil_append, h0, hft]
    rfl
  | cons u ts1x ih =>
    intro t ts2 m vn reason hok hft
    obtain ⟨r, s, c, st, hu⟩ := hok u (List.mem_cons_self u ts1x)
    have h0 : integrateSumAux (u :: (ts1x ++ t :: ts2)) m vn =
        (do
          match ← integrate u m vn with
          | .err r2 => .ok (.inl r2)
          | .ok r2 rs2 _ _ =>
            match ← integrateSumAux (ts1x ++ t :: ts2) m vn with
            | .inl r3 => .ok (.inl r3)
            | .inr (es, ss) => .ok (.inr (r2 :: es, .list rs2 :: ss))) := rfl
    rw [List.cons_append, h0, hu]
    simp only [ok_bind]
    rw [ih t ts2 m vn reason (fun v hv => hok v (List.mem_cons_of_mem u hv)) hft]
    rfl

/-- The differentiation counterpart of `integrateSumAux_firstFail`. -/
theorem differentiateSumAux_firstFail : ∀ (ts1 : List Node) (t : Node) (ts2 : List Node)
    (m vn reason : String),
    (∀ u ∈ ts1, ∃ r s c st, differentiate u m vn = .ok (.ok r s c st)) →
    differentiate t m vn = .ok (.err reason) →
    differentiateSumAux (ts1 ++ t :: ts2) m vn = .ok (.inl reason) := by
  intro ts1
  induction ts1 with
  | nil =>
    intro t ts2 m vn reason _ hft
    have h0 : differentiateSumAux (t :: ts2) m vn =
        (do
          match ← differentiate t m vn with
          | .err r2 => .ok (.inl r2)
          | .ok r2 rs2 _ _ =>
            match ← differentiateSumAux ts2 m vn with
            | .inl r3 => .ok (.inl r3)
            | .inr (es, ss) => .ok (.inr (r2 :: es, .list rs2 :: ss))) := rfl
    rw [List.nil_append, h0, hft]
    rfl
  | cons u ts1x ih =>
    intro t ts2 m vn reason hok hft
    obtain ⟨r, s, c, st, hu⟩ := hok u (List.mem_cons_self u ts1x)
    have h0 : differentiateSumAux (u :: (ts1x ++ t :: ts2)) m vn =
        (do
          match ← differentiate u m vn with
          | .err r2 => .ok (.inl r2)
          | .ok r2 rs2 _ _ =>
            match ← differentiateSumAux (ts1x ++ t :: ts2) m vn with
            | .inl r3 => .ok (.inl r3)
            | .inr (es, ss) => .ok (.inr (r2 :: es, .list rs2 :: ss))) := rfl
    rw [List.cons_append, h0, hu]
    simp only [ok_bind]
    rw [ih t ts2 m vn reason (fun v hv => hok v (List.mem_cons_of_mem u hv)) hft]
    rfl


/-- `Fraction(1, k)` is never zero (for `k ≠ 0`). -/
theorem fracInt_one_ne_zero {k : Int} (hk : k ≠ 0) : fracInt 1 k ≠ 0 := by
  have hd : k.natAbs ≠ 0 := Int.natAbs_ne_zero.mpr hk
  unfold fracInt
  by_cases hneg : k < 0
  · rw [if_pos hneg, Ne, Rat.mkRat_eq_zero hd]
    norm_num
  · rw [if_neg hneg, Ne, Rat.mkRat_eq_zero hd]
    norm_num

/-- `Fraction(1, k)` equals one exactly when `k = 1` (for `k ≠ 0`). -/
theorem fracInt_one_eq_one_iff {k : Int} (hk : k ≠ 0) : fracInt 1 k = 1 ↔ k = 1 := by
  have hd : k.natAbs ≠ 0 := Int.natAbs_ne_zero.mpr hk
  have hdq : ((k.natAbs : ℚ)) ≠ 0 := Nat.cast_ne_zero.mpr hd
  unfold fracInt
  by_cases hneg : k < 0
  · rw [if_pos hneg]
    constructor
    · intro h
      rw [Rat.mkRat_eq_div, div_eq_one_iff_eq hdq] at h
      have hge : (0 : ℚ) ≤ (k.natAbs : ℚ) := Nat.cast_nonneg _
      rw [← h] at hge
      push_cast at hge
      norm_num at hge
    · intro h
      exact absurd h (by omega)
  · rw [if_neg hneg, Rat.mkRat_eq_div, div_eq_one_iff_eq hdq]
    constructor
    · intro h
      rw [eq_comm] at h
      norm_num at h
      omega
    · intro h
      subst h
      decide


/-! ## The claims -/

/-- C1: For every canonical input node on which `differentiate`
(resp. `integrate`) returns success, the result node satisfies all eight
structural invariants of §3 (Mul inner never Const or Mul; Power exponent
≥ 2; Sum has ≥ 2 terms, none a Sum or zero Const; Prod has ≥ 2 atomic
factors ordered Var < Power < Func with no Const or nested Prod; Prod
Power factors have Var bases; Func arguments are bare Vars; Func names
are in sin/cos/exp). -/
theorem C1_invariant_preservation (e : Node) (m vn : String) (r : Node)
    (s : List Trace) (c : Bool) (st : String) (h : invB e = true) :
    (differentiate e m vn = .ok (.ok r s c st) → invB r = true) ∧
    (integrate e m vn = .ok (.ok r s c st) → invB r = true) :=
  ⟨fun hd => (differentiate_inv (sizeOf e) e le_rfl h m vn r s c st hd).1,
   fun hi => (integrate_inv (sizeOf e) e le_rfl h m vn r s c st hi).1⟩

/-- C1 witness: `x^2` is canonical; integrating it succeeds with result
`(1/3)·x^3`, which satisfies the invariants. -/
theorem C1_invariant_preservation_witness :
    invB (Node.power (.var "x") 2) = true ∧
    invB (Node.mul (mkRat 1 3) (.power (.var "x") 3)) = true :=
  ⟨rfl,
   (C1_invariant_preservation (.power (.var "x") 2) "fraction" "x"
      (.mul (mkRat 1 3) (.power (.var "x") 3))
      [.str "∫ x^2 dx = x^3/3 + C"] true "1/3x^3 + C" rfl).2 rfl⟩

/-- C2: the claim `normalize (normalize e) = normalize e` for every
grammar-producible `e` fails on the raw AST of `--x`,
`Mul(-1, Mul(-1, x))`: one pass returns `Mul(1, x)` (the nested-`Mul`
collapse multiplies the coefficients to 1 without re-checking the
coefficient-1 elimination rule), and a second pass reduces that to `x`. -/
theorem C2_normalize_not_idempotent :
    normalize (.mul (-1) (.mul (-1) (.var "x"))) = .ok (.mul 1 (.var "x")) ∧
    normalize (.mul 1 (.var "x")) = .ok (.var "x") ∧
    Node.mul 1 (.var "x") ≠ .var "x" :=
  ⟨rfl, rfl, fun h => Node.noConfusion h⟩

/-- C3 counterexample: `normalize` is not total-with-invariants over the
parser's raw ASTs: on the raw AST of `sin(x+1)` it returns the error
object, which is not a tree satisfying the §3 invariants. -/
theorem C3_counterexample :
    normalize (.func "sin" (.sum [.var "x", .const 1])) =
      .ok (.errObj "Unsupported argument in function: sin") ∧
    invB (.errObj "Unsupported argument in function: sin") = false :=
  ⟨rfl, rfl⟩

/-- C3 amended: `normalize` always terminates, returning a node, the
error object, or raising `KeyError`; and on every raw AST with no `Prod`,
non-negative `Power` exponents, supported `Func` names and bare-`Var`
`Func` arguments, a returned node satisfies all eight invariants of §3. -/
theorem C3_normalize_invariants_amended (e : Node) (h : preB e = true)
    (n : Node) (hn : normalize e = .ok n) : invB n = true :=
  (normalize_invariants h hn).1

/-- C3 witness: `x^5` satisfies the precondition and its normal form
satisfies the invariants. -/
theorem C3_normalize_invariants_amended_witness :
    preB (Node.power (.var "x") 5) = true ∧
    invB (Node.power (.var "x") 5) = true :=
  ⟨rfl, C3_normalize_invariants_amended (.power (.var "x") 5) rfl
    (.power (.var "x") 5) rfl⟩

/-- C4 counterexample: in the zero-constant special case
(`integrate(Mul(0, x))`, result `Const 0`) the `constant`/indefinite flag
IS set (`rules.integrate_mul` line 110 returns `"constant": True` there),
so the rendered string is `"0 + C"`; the claim says the flag is not set
in this case. -/
theorem C4_counterexample :
    integrate (.mul 0 (.var "x")) "fraction" "x" =
      .ok (.ok (.const 0) [.str "Integral of 0 is 0"] true "0 + C") := rfl

/-- C4 amended: the indefinite (`constant`) flag is set `true` by every
successful `integrate` branch, including the zero-constant special case,
and no branch clears a flag set by a sub-result on the way up. -/
theorem C4_indefinite_flag (e : Node) (m vn : String) (r : Node)
    (s : List Trace) (c : Bool) (st : String)
    (h : integrate e m vn = .ok (.ok r s c st)) : c = true :=
  integrate_constant_flag e m vn r s c st h

/-- C4 witness: integrating `x` succeeds and its flag is `true`. -/
theorem C4_indefinite_flag_witness :
    integrate (.var "x") "fraction" "x" =
      .ok (.ok (.mul (mkRat 1 2) (.power (.var "x") 2))
        [.str "∫ x dx = x^2/2 + C"] true "1/2x^2 + C") ∧ true = true :=
  ⟨rfl, C4_indefinite_flag (.var "x") "fraction" "x"
    (.mul (mkRat 1 2) (.power (.var "x") 2))
    [.str "∫ x dx = x^2/2 + C"] true "1/2x^2 + C" rfl⟩

/-- C5: for `differentiate` and `integrate` on a `Sum`, if the terms
before `t` all succeed and `t`'s rewrite fails, the whole `Sum` call
returns `t`'s exact failure object unchanged — for every list `ts2` of
later siblings, which are therefore never evaluated. -/
theorem C5_sum_error_propagation (ts1 : List Node) (t : Node) (ts2 : List Node)
    (m vn reason : String) :
    ((∀ u ∈ ts1, ∃ r s c st, integrate u m vn = .ok (.ok r s c st)) →
      integrate t m vn = .ok (.err reason) →
      integrate (.sum (ts1 ++ t :: ts2)) m vn = .ok (.err reason)) ∧
    ((∀ u ∈ ts1, ∃ r s c st, differentiate u m vn = .ok (.ok r s c st)) →
      differentiate t m vn = .ok (.err reason) →
      differentiate (.sum (ts1 ++ t :: ts2)) m vn = .ok (.err reason)) := by
  constructor
  · intro hok hft
    have h0 : integrate (.sum (ts1 ++ t :: ts2)) m vn =
        (do
          match ← integrateSumAux (ts1 ++ t :: ts2) m vn with
          | .inl r2 => integratePost (.err r2) m vn
          | .inr (results, stepss) =>
            integratePost (.ok (.sum results)
              (.str "Using Linearity of Integration:" :: stepss) true) m vn) := rfl
    rw [h0, integrateSumAux_firstFail ts1 t ts2 m vn reason hok hft]
    rfl
  · intro hok hft
    have h0 : differentiate (.sum (ts1 ++ t :: ts2)) m vn =
        (do
          match ← differentiateSumAux (ts1 ++ t :: ts2) m vn with
          | .inl r2 => differentiatePost (.err r2) m vn
          | .inr (results, stepss) =>
            differentiatePost (.ok (.sum results)
              (.str "Using Linearity of Differentiation:" :: stepss) false) m vn) := rfl
    rw [h0, differentiateSumAux_firstFail ts1 t ts2 m vn reason hok hft]
    rfl

/-- C5 witness: in `x + x·sin(x) + 5` the `Prod` term fails, and the
whole call returns exactly that failure, ignoring the trailing term. -/
theorem C5_sum_error_propagation_witness :
    integrate (.sum [.var "x", .prod [.var "x", .func "sin" (.var "x")],
        .const 5]) "fraction" "x" =
      .ok (.err "Integration of products not implemented yet") ∧
    differentiate (.sum [.var "x", .prod [.var "x", .func "sin" (.var "x")],
        .const 5]) "fraction" "x" =
      .ok (.err "Product rule not implemented yet") := by
  constructor
  · exact (C5_sum_error_propagation [.var "x"]
      (.prod [.var "x", .func "sin" (.var "x")]) [.const 5] "fraction" "x"
      "Integration of products not implemented yet").1
      (by
        intro u hu
        rw [List.mem_singleton] at hu
        subst hu
        exact ⟨_, _, _, _, rfl⟩)
      rfl
  · exact (C5_sum_error_propagation [.var "x"]
      (.prod [.var "x", .func "sin" (.var "x")]) [.const 5] "fraction" "x"
      "Product rule not implemented yet").2
      (by
        intro u hu
        rw [List.mem_singleton] at hu
        subst hu
        exact ⟨_, _, _, _, rfl⟩)
      rfl

/-- C6: on every `Prod` node, `differentiate` returns a failure whose
reason says the product rule is unsupported, and `integrate` returns a
failure whose reason says integration of products is unsupported;
neither ever succeeds on a `Prod`. -/
theorem C6_prod_always_fails (fs : List Node) (m vn : String) :
    differentiate (.prod fs) m vn = .ok (.err "Product rule not implemented yet") ∧
    integrate (.prod fs) m vn = .ok (.err "Integration of products not implemented yet") :=
  ⟨rfl, rfl⟩

/-- C8: `integrate` on the canonical AST of `x^3` in fraction mode
succeeds; the rendered string is `"1/4x^4"` followed by the
constant-of-integration suffix, i.e. `"1/4x^4 + C"`. -/
theorem C8_integrate_cube :
    integrate (.power (.var "x") 3) "fraction" "x" =
      .ok (.ok (.mul (mkRat 1 4) (.power (.var "x") 4))
        [.str "∫ x^3 dx = x^4/4 + C"] true "1/4x^4 + C") := rfl

/-- C9: on a `Prod` whose normalized factor is a `Sum` (raw `(x+1)*x`) or
a `Mul` (raw `(2x)*x`), `normalize` returns the `{error, reason}` object
instead of a canonical tree — it neither distributes the product over the
sum nor keeps the non-atomic factor in place. -/
theorem C9_prod_nonatomic_factor :
    normalize (.prod [.sum [.var "x", .const 1], .var "x"]) =
      .ok (.errObj "Unsupported Factor Type in Product: sum") ∧
    normalize (.prod [.mul 2 (.var "x"), .var "x"]) =
      .ok (.errObj "Unsupported Factor Type in Product: mul") ∧
    invB (.errObj "Unsupported Factor Type in Product: sum") = false ∧
    invB (.errObj "Unsupported Factor Type in Product: mul") = false :=
  ⟨rfl, rfl, rfl, rfl⟩

/-- C10: when a child normalization yields the error object (here a
`Func` whose argument is not a bare `Var`) and that child is a term of a
`Sum`, the inner expression of a `Mul`, or a factor of a `Prod`, the
parent normalization raises an uncaught `KeyError` (the error object has
no `"type"` key) rather than returning a failure result. -/
theorem C10_keyerror_on_nested_error :
    normalize (.func "sin" (.sum [.var "x", .const 1])) =
      .ok (.errObj "Unsupported argument in function: sin") ∧
    normalize (.sum [.func "sin" (.sum [.var "x", .const 1]), .var "x"]) =
      .error .keyError ∧
    normalize (.mul 2 (.func "sin" (.sum [.var "x", .const 1]))) =
      .error .keyError ∧
    normalize (.prod [.func "sin" (.sum [.var "x", .const 1]), .var "x"]) =
      .error .keyError :=
  ⟨rfl, rfl, rfl, rfl⟩


/-- C7: `integrate` on `Power(base, n)` fails when the base is not a
`Var`; fails distinctly (with a logarithm-related reason) when `n = -1`;
and otherwise succeeds, with result the re-normalization of
`(1/(n+1)) · base^(n+1)` and the indefinite flag set. -/
theorem C7_integrate_power (b : Node) (n : Int) (m vn s : String) :
    (isVarN b = false → isErrN b = false →
      integrate (.power b n) m vn =
        .ok (.err "Power rule only supports x^n (no chain rule yet)")) ∧
    (integrate (.power (.var s) (-1)) m vn =
      .ok (.err "Integral of x^-1 needs Logarithms(not implemented yet)")) ∧
    (n ≠ -1 → ∃ r sts st,
      normalize (.mul (fracInt 1 (n + 1)) (.power (.var s) (n + 1))) = .ok r ∧
      integrate (.power (.var s) n) m vn = .ok (.ok r sts true st)) := by
  refine ⟨?_, rfl, ?_⟩
  · intro h1 h2
    cases b with
    | var s2 => simp [isVarN] at h1
    | errObj r2 => simp [isErrN] at h2
    | const v => rfl
    | power b2 e2 => rfl
    | mul c2 e2 => rfl
    | prod fs => rfl
    | sum ts => rfl
    | func n2 a2 => rfl
  · intro hn1
    have hk0 : n + 1 ≠ 0 := by omega
    have hq0 : fracInt 1 (n + 1) ≠ 0 := fracInt_one_ne_zero hk0
    have h0 : integrate (.power (.var s) n) m vn =
        (integrate_power (.var s) n >>= fun out => integratePost out m vn) := rfl
    by_cases hk1 : n + 1 = 1
    · have hq1 : fracInt 1 (n + 1) = 1 := (fracInt_one_eq_one_iff hk0).mpr hk1
      have hnorm : normalize (.mul (fracInt 1 (n + 1)) (.power (.var s) (n + 1))) =
          .ok (.var s) := by
        rw [normalize_mul, if_neg hq0, normalize_power]
        simp only [normalize_var, ok_bind]
        rw [if_neg hk0, if_pos hk1]
        simp only [ok_bind]
        show (if fracInt 1 (n + 1) = 1 then Except.ok (Node.var s)
          else Except.ok (Node.mul (fracInt 1 (n + 1)) (Node.var s))) = .ok (.var s)
        rw [if_pos hq1]
      refine ⟨.var s,
        [.str ("∫ x^" ++ toString n ++ " dx = x^" ++ toString (n + 1) ++ "/" ++
          toString (n + 1) ++ " + C")], vn ++ " + C", hnorm, ?_⟩
      rw [h0, integrate_power, if_neg hn1]
      simp only [ok_bind, integratePost, hnorm]
      rfl
    · have hq1 : ¬ fracInt 1 (n + 1) = 1 :=
        fun h => hk1 ((fracInt_one_eq_one_iff hk0).mp h)
      have hnorm : normalize (.mul (fracInt 1 (n + 1)) (.power (.var s) (n + 1))) =
          .ok (.mul (fracInt 1 (n + 1)) (.power (.var s) (n + 1))) := by
        rw [normalize_mul, if_neg hq0, normalize_power]
        simp only [normalize_var, ok_bind]
        rw [if_neg hk0, if_neg hk1]
        simp only [ok_bind]
        show (if fracInt 1 (n + 1) = 1 then Except.ok (Node.power (.var s) (n + 1))
          else Except.ok (Node.mul (fracInt 1 (n + 1)) (Node.power (.var s) (n + 1)))) =
          .ok (.mul (fracInt 1 (n + 1)) (.power (.var s) (n + 1)))
        rw [if_neg hq1]
      have hts : to_string (.mul (fracInt 1 (n + 1)) (.power (.var s) (n + 1))) m vn =
          (if fracInt 1 (n + 1) = -1 then .ok ("-" ++ (vn ++ "^" ++ toString (n + 1)))
           else .ok (constStr (fracInt 1 (n + 1)) m ++ (vn ++ "^" ++ toString (n + 1)))) := rfl
      by_cases hqm : fracInt 1 (n + 1) = -1
      · refine ⟨.mul (fracInt 1 (n + 1)) (.power (.var s) (n + 1)),
          [.str ("∫ x^" ++ toString n ++ " dx = x^" ++ toString (n + 1) ++ "/" ++
            toString (n + 1) ++ " + C")],
          ("-" ++ (vn ++ "^" ++ toString (n + 1))) ++ " + C", hnorm, ?_⟩
        rw [h0, integrate_power, if_neg hn1]
        simp only [ok_bind, integratePost, hnorm]
        simp only [ok_bind, hts]
        rw [if_pos hqm]
        rfl
      · refine ⟨.mul (fracInt 1 (n + 1)) (.power (.var s) (n + 1)),
          [.str ("∫ x^" ++ toString n ++ " dx = x^" ++ toString (n + 1) ++ "/" ++
            toString (n + 1) ++ " + C")],
          (constStr (fracInt 1 (n + 1)) m ++ (vn ++ "^" ++ toString (n + 1))) ++ " + C",
          hnorm, ?_⟩
        rw [h0, integrate_power, if_neg hn1]
        simp only [ok_bind, integratePost, hnorm]
        simp only [ok_bind, hts]
        rw [if_neg hqm]
        rfl

/-- C7 witness: the three behaviours at concrete inputs — a `Func` base
fails, exponent `-1` fails with the logarithm reason, and `x^3`
succeeds with the re-normalized result `(1/4)·x^4`. -/
theorem C7_integrate_power_witness :
    integrate (.power (.func "sin" (.var "x")) 2) "fraction" "x" =
      .ok (.err "Power rule only supports x^n (no chain rule yet)") ∧
    integrate (.power (.var "x") (-1)) "fraction" "x" =
      .ok (.err "Integral of x^-1 needs Logarithms(not implemented yet)") ∧
    normalize (.mul (fracInt 1 (3 + 1)) (.power (.var "x") (3 + 1))) =
      .ok (.mul (mkRat 1 4) (.power (.var "x") 4)) := by
  refine ⟨?_, ?_, ?_⟩
  · exact (C7_integrate_power (.func "sin" (.var "x")) 2 "fraction" "x" "x").1 rfl rfl
  · exact (C7_integrate_power (.var "x") 3 "fraction" "x" "x").2.1
  · rfl

end PyCAS
